import Mathlib

/-!
Verification development for the dynamite-nsm installer/orchestrator.

The Python sources (src/lib/services/logstash.py, src/installer/elastiflow.py,
src/lib/agent.py) are shallowly embedded below.  Text files are modelled
line-orientedly: a line is a `List Char` (named `Line`), mirroring the strings
Python's `readlines()` yields; where a raw line is processed (the environment
writer, the jvm.options rewriter) the model keeps the trailing newline
character inside the line, exactly as `readlines()` does.
-/

set_option maxRecDepth 100000

namespace DynamiteNSM

/-- A single line of a text file, as a list of characters. -/
abbrev Line := List Char

/-- The whitespace characters stripped by Python's `str.strip()`. -/
def isSpaceChar (c : Char) : Bool :=
  c == ' ' || c == '\t' || c == '\n' || c == '\r' || c == '\x0b' || c == '\x0c'

/-- Model of Python `str.lstrip()`. -/
def lstripChars (l : Line) : Line := l.dropWhile isSpaceChar

/-- Model of Python `str.rstrip()`. -/
def rstripChars (l : Line) : Line := (l.reverse.dropWhile isSpaceChar).reverse

/-- Model of Python `str.strip()`. -/
def stripChars (l : Line) : Line := rstripChars (lstripChars l)

/-- Model of Python `line.startswith('#')`. -/
def startsHash : Line → Bool
  | [] => false
  | c :: _ => c == '#'

/-- Model of Python `d in line` for a single character `d`. -/
def containsChar (d : Char) (l : Line) : Bool := l.any (fun c => c == d)

/-- Model of Python `str.split(d)` for a one-character separator:
splits at every occurrence of `d`. -/
def splitChar (d : Char) : Line → List Line
  | [] => [[]]
  | c :: t =>
    match splitChar d t with
    | [] => [[c]]
    | h :: r => if c == d then [] :: h :: r else (c :: h) :: r

/-- Model of `.replace('"','').replace("'",'')`: removes every double or
single quote character (codepoints 34 and 39). -/
def removeQuotes (l : Line) : Line :=
  l.filter (fun c => !(c.toNat == 34 || c.toNat == 39))

/-- The value clean-up `str(v).strip().replace('"','').replace("'",'')`
applied by `LogstashConfigurator._parse_logstashyaml` (logstash.py line 48). -/
def cleanupValue (w : Line) : Line := removeQuotes (stripChars w)

/-- Python-dict--style insertion into an association list: an existing key
keeps its position and gets the new value, a new key is appended. -/
def updAssoc : List (Line × Line) → Line → Line → List (Line × Line)
  | [], k, v => [(k, v)]
  | (k0, v0) :: t, k, v =>
    if k0 = k then (k0, v) :: t else (k0, v0) :: updAssoc t k v

/-- Key lookup in the association list (Python `dict` access). -/
def lookupKV : List (Line × Line) → Line → Option Line
  | [], _ => none
  | (k0, v0) :: t, k => if k0 = k then some v0 else lookupKV t k

/-- Loop of `LogstashConfigurator._parse_logstashyaml` (logstash.py lines
45-48): skips lines starting with `#` and lines without a colon; on the rest
performs `k, v = line.strip().split(':')`, which raises `ValueError`
(modelled as `none`) unless the split yields exactly two pieces. -/
def parseLsAux : List Line → List (Line × Line) → Option (List (Line × Line))
  | [], m => some m
  | l :: rest, m =>
    if startsHash l || !(containsChar ':' l) then parseLsAux rest m
    else
      match splitChar ':' (stripChars l) with
      | [k, w] => parseLsAux rest (updAssoc m k (cleanupValue w))
      | _ => none

/-- `LogstashConfigurator._parse_logstashyaml` on the lines of
`logstash.yml`; `none` models an uncaught `ValueError`. -/
def parseLogstashYaml (lines : List Line) : Option (List (Line × Line)) :=
  parseLsAux lines []

/-- Model of Python `pattern.startswith`, argument order: the pattern first,
then the scanned line. -/
def startsWithChars : Line → Line → Bool
  | [], _ => true
  | _ :: _, [] => false
  | p :: ps, c :: cs => p == c && startsWithChars ps cs

/-- Model of Python `pat in line` (substring membership). -/
def containsSeq (pat : Line) : Line → Bool
  | [] => pat.isEmpty
  | c :: t => startsWithChars pat (c :: t) || containsSeq pat t

/-- Model of Python `str.replace(pat, '')` for a nonempty `pat`: deletes every
(leftmost-first) occurrence of `pat`. -/
def removeSeq (pat : Line) : Line → Line
  | [] => []
  | c :: t =>
    if startsWithChars pat (c :: t) then removeSeq pat (t.drop (pat.length - 1))
    else c :: removeSeq pat t
termination_by l => l.length
decreasing_by
  · simp only [List.length_drop, List.length_cons]
    omega
  · simp [List.length_cons]

/-- Loop of `LogstashConfigurator._parse_jvm_options` (logstash.py lines
60-64): a non-comment line containing `-Xms` sets `initial_memory`, else one
containing `-Xmx` sets `maximum_memory`; never raises. -/
def parseJvmAux : List Line → List (Line × Line) → List (Line × Line)
  | [], m => m
  | l :: rest, m =>
    if !startsHash l && containsSeq (String.toList "-Xms") l then
      parseJvmAux rest
        (updAssoc m (String.toList "initial_memory")
          (stripChars (removeSeq (String.toList "-Xms") l)))
    else if !startsHash l && containsSeq (String.toList "-Xmx") l then
      parseJvmAux rest
        (updAssoc m (String.toList "maximum_memory")
          (stripChars (removeSeq (String.toList "-Xmx") l)))
    else parseJvmAux rest m

/-- `LogstashConfigurator._parse_jvm_options` on the lines of `jvm.options`. -/
def parseJvmOptions (lines : List Line) : List (Line × Line) := parseJvmAux lines []

/-- Loop of `LogstashConfigurator._parse_environment_file` (logstash.py lines
72-78): a line starting with one of the three names has `line.split('=')[1]`
taken and stripped; on such a line without `=` the index raises `IndexError`
(modelled as `none`). -/
def parseEnvFileAux :
    List Line → Option Line × Option Line × Option Line →
    Option (Option Line × Option Line × Option Line)
  | [], s => some s
  | l :: rest, (jh, lpc, lh) =>
    if startsWithChars (String.toList "JAVA_HOME") l then
      match splitChar '=' l with
      | _ :: v :: _ => parseEnvFileAux rest (some (stripChars v), lpc, lh)
      | _ => none
    else if startsWithChars (String.toList "LS_PATH_CONF") l then
      match splitChar '=' l with
      | _ :: v :: _ => parseEnvFileAux rest (jh, some (stripChars v), lh)
      | _ => none
    else if startsWithChars (String.toList "LS_HOME") l then
      match splitChar '=' l with
      | _ :: v :: _ => parseEnvFileAux rest (jh, lpc, some (stripChars v))
      | _ => none
    else parseEnvFileAux rest (jh, lpc, lh)

/-- The observable filesystem state the Logstash process/profiler code
touches: the two config files and `/etc/environment` (each `none` when the
file does not exist, otherwise its lines), the run directory
`/var/run/dynamite/logstash/`, and the PID file content. -/
structure LsFS where
  logstashYml : Option (List Line)
  jvmOptions : Option (List Line)
  envFile : Option (List Line)
  runDir : Bool
  pidFile : Option Line
deriving DecidableEq

/-- The in-memory state `LogstashConfigurator.__init__` builds. -/
structure LsConfig where
  lsOptions : List (Line × Line)
  jvmConfigOptions : List (Line × Line)
  javaHome : Option Line
  lsPathConf : Option Line
  lsHome : Option Line
deriving DecidableEq

/-- `LogstashConfigurator.__init__` (logstash.py lines 24-34): parses
`logstash.yml` (empty map when absent, may raise), `jvm.options` (empty map
when absent), then `/etc/environment` (raises `IOError` when absent, may
raise `IndexError`); `none` models any uncaught exception. -/
def configuratorInit (fs : LsFS) : Option LsConfig :=
  match (match fs.logstashYml with
         | none => some []
         | some lines => parseLogstashYaml lines) with
  | none => none
  | some lsOpts =>
    let jvm := match fs.jvmOptions with
      | none => []
      | some lines => parseJvmOptions lines
    match fs.envFile with
    | none => none
    | some envLines =>
      match parseEnvFileAux envLines (none, none, none) with
      | none => none
      | some (jh, lpc, lh) => some ⟨lsOpts, jvm, jh, lpc, lh⟩

/-- Auxiliary digit scanner for `pyIntChars`: digits, with single
underscores allowed between digits as Python's `int` accepts. -/
def pyDigitsAux (acc : Nat) : Line → Option Nat
  | [] => some acc
  | c :: rest =>
    if c.isDigit then pyDigitsAux (10 * acc + (c.toNat - 48)) rest
    else if c.toNat == 95 then
      match rest with
      | [] => none
      | c2 :: rest2 =>
        if c2.isDigit then pyDigitsAux (10 * acc + (c2.toNat - 48)) rest2 else none
    else none

/-- A nonempty all-digit (with grouping underscores) numeral. -/
def pyNatChars : Line → Option Nat
  | [] => none
  | c :: r => if c.isDigit then pyDigitsAux (c.toNat - 48) r else none

/-- Model of Python `int(s)` on a string: surrounding whitespace stripped,
one optional sign, then a nonempty numeral; `none` models `ValueError`. -/
def pyIntChars (l : Line) : Option Int :=
  match stripChars l with
  | '+' :: r => (pyNatChars r).map Int.ofNat
  | '-' :: r => (pyNatChars r).map (fun n => -(Int.ofNat n))
  | s => (pyNatChars s).map Int.ofNat

/-- The PID computation of `LogstashProcess.__init__` (logstash.py lines
540-543): `int(open(pid file).read()) + 1`, with `-1` recorded when the file
is missing (`IOError`) or its content is not an integer (`ValueError`). -/
def pidPlusOne (content : Option Line) : Int :=
  match content with
  | none => -1
  | some s =>
    match pyIntChars s with
    | some n => n + 1
    | none => -1

/-- `LogstashProcess.__init__` (logstash.py lines 529-543): builds the
configurator (exceptions propagate), then creates the run directory
`/var/run/dynamite/logstash/` when it does not exist (the one filesystem
write), then records the PID.  Returns the resulting filesystem, the
configurator state, and the recorded PID. -/
def logstashProcessInit (fs : LsFS) : Option (LsFS × LsConfig × Int) :=
  match configuratorInit fs with
  | none => none
  | some cfg =>
    let fs' := if fs.runDir then fs else { fs with runDir := true }
    some (fs', cfg, pidPlusOne fs.pidFile)

/-- Modelled from the spec: `utilities.check_pid` is not among the excerpted
sources; per the spec it is a `kill -0`-style liveness probe and the
sentinel PID `-1` means "no process" (never alive).  Liveness of real PIDs
is an oracle parameter `alive`. -/
def checkPid (alive : Int → Bool) (pid : Int) : Bool :=
  if pid = -1 then false else alive pid

/-- One PID-file read inside `LogstashProcess.start`'s retry loop
(logstash.py lines 567-582): a successful read records `int(content) + 1`;
a missing file (`IOError`) is caught and leaves the recorded PID unchanged;
non-integer content raises an uncaught `ValueError` (modelled as `none`). -/
def startLoopRead (content : Option Line) (pid : Int) : Option Int :=
  match content with
  | none => some pid
  | some s =>
    match pyIntChars s with
    | some n => some (n + 1)
    | none => none

/-- The bounded retry loop of `LogstashProcess.start` (`while retry < 6`,
logstash.py lines 565-583): reads the PID file, and returns `True` once the
recorded PID is alive; returns `False` when the retries are exhausted. -/
def lsStartLoop (alive : Int → Bool) (content : Option Line) :
    Nat → Int → Option Bool
  | 0, _ => some false
  | fuel + 1, pid =>
    match content with
    | none => lsStartLoop alive content fuel pid
    | some s =>
      match pyIntChars s with
      | none => none
      | some n =>
        if checkPid alive (n + 1) then some true
        else lsStartLoop alive content fuel (n + 1)

/-- `LogstashProcess.start` (logstash.py lines 545-583): first `self.pid`
is reset to `-1`; then, when `check_pid(self.pid)` is false, a new child is
spawned (the spawn count in the result records this) and the PID file is
polled; when `check_pid(self.pid)` is true the call reports already-running
and returns `True` without spawning.  `content` is the PID-file content seen
by the polls after the spawn; the result is `(returned value, number of
processes spawned)`. -/
def lsStart (alive : Int → Bool) (content : Option Line) (recordedPid : Int) :
    Option (Bool × Nat) :=
  let pid : Int := -1
  if !checkPid alive pid then
    match lsStartLoop alive content 6 pid with
    | none => none
    | some b => some (b, 1)
  else some (true, 0)

/-- `LogstashProcess.status` restricted to its `RUNNING` field (logstash.py
lines 622-635): `os.path.join(self.config.get_log_path(), ...)` raises
`TypeError` (modelled as `none`) when `path.logs` is not configured, else
the liveness of the recorded PID is reported. -/
def lsStatusRunning (alive : Int → Bool) (cfg : LsConfig) (pid : Int) :
    Option Bool :=
  match lookupKV cfg.lsOptions (String.toList "path.logs") with
  | none => none
  | some _ => some (checkPid alive pid)

/-- `LogstashProfiler._is_running` (logstash.py lines 517-522):
`LogstashProcess().status()['RUNNING']` with every exception caught and
turned into `False`.  Returns the filesystem state after the call together
with the boolean: the run-directory creation performed inside
`LogstashProcess.__init__` survives even when a later step raises. -/
def isRunningCheck (alive : Int → Bool) (fs : LsFS) : LsFS × Bool :=
  match logstashProcessInit fs with
  | none => (fs, false)
  | some (fs', cfg, pid) =>
    match lsStatusRunning alive cfg pid with
    | none => (fs', false)
    | some b => (fs', b)

/-- `ElastiflowConfigurator.__init__` (elastiflow.py lines 16-46): the
instance attributes in definition order, with each default value rendered
the way `'{}={}'.format` renders it. -/
def elastiflowDefaultVars : List (Line × Line) :=
  [ (String.toList "netflow_ipv4_host", String.toList "0.0.0.0"),
    (String.toList "netflow_ipv6_host", String.toList "[::]"),
    (String.toList "netflow_ipv4_port", String.toList "2055"),
    (String.toList "netflow_ipv6_port", String.toList "56343"),
    (String.toList "sflow_ipv4_host", String.toList "0.0.0.0"),
    (String.toList "sflow_ipv6_host", String.toList "[::]"),
    (String.toList "sflow_ipv4_port", String.toList "6343"),
    (String.toList "sflow_ipv6_port", String.toList "54739"),
    (String.toList "ipfix_tcp_ipv4_host", String.toList "0.0.0.0"),
    (String.toList "ipfix_tcp_ipv6_host", String.toList "[::]"),
    (String.toList "ipfix_tcp_ipv4_port", String.toList "4739"),
    (String.toList "ipfix_tcp_ipv6_port", String.toList "54739"),
    (String.toList "ipfix_udp_ipv4_host", String.toList "0.0.0.0"),
    (String.toList "ipfix_udp_ipv6_host", String.toList "[::]"),
    (String.toList "ipfix_udp_ipv4_port", String.toList "4739"),
    (String.toList "ipfix_udp_ipv6_port", String.toList "54739"),
    (String.toList "zeek_ipv4_host", String.toList "0.0.0.0"),
    (String.toList "zeek_ipv4_port", String.toList "5044"),
    (String.toList "netflow_udp_workers", String.toList "4"),
    (String.toList "netflow_udp_queue_size", String.toList "4096"),
    (String.toList "netflow_udp_rcv_buff", String.toList "33554432"),
    (String.toList "sflow_udp_workers", String.toList "4"),
    (String.toList "sflow_udp_queue_size", String.toList "4096"),
    (String.toList "sflow_udp_rcv_buff", String.toList "33554432"),
    (String.toList "ipfix_udp_workers", String.toList "4"),
    (String.toList "ipfix_udp_queue_size", String.toList "4096"),
    (String.toList "ipfix_udp_rcv_buff", String.toList "33554432"),
    (String.toList "elastiflow_es_host", String.toList "127.0.0.1:9200") ]

/-- `'ELASTIFLOW_' + str(var).upper()` (elastiflow.py line 116). -/
def elastiflowKeyOf (name : Line) : Line :=
  String.toList "ELASTIFLOW_" ++ name.map Char.toUpper

/-- Python `dict.pop(key)` on the association list: the value and the list
without that entry, or `none` when the key is absent. -/
def popAssoc : List (Line × Line) → Line → Option (Line × List (Line × Line))
  | [], _ => none
  | (k0, v0) :: t, k =>
    if k0 = k then some (v0, t)
    else
      match popAssoc t k with
      | none => none
      | some (v, t') => some (v, (k0, v0) :: t')

/-- Loop of `ElastiflowConfigurator.write_environment_variables`
(elastiflow.py lines 118-126).  Each element of `lines` is a raw
`readlines()` line, trailing newline included.  A line containing `=` whose
part before the first `=` is a pending elastiflow key is replaced by
`key=value` (and the key is popped); every emitted line is followed by the
unconditional extra `'\n'` of line 124; the still-pending keys are appended
as `key=value` lines at the end.  The result is the full new file content
as one character sequence. -/
def writeEnvAux : List Line → List (Line × Line) → Line → Line
  | [], m, acc => acc ++ (m.map (fun kv => kv.1 ++ '=' :: kv.2 ++ ['\n'])).flatten
  | line :: rest, m, acc =>
    if containsChar '=' line then
      let key := (splitChar '=' line).headD []
      match popAssoc m key with
      | some (v, m') => writeEnvAux rest m' (acc ++ key ++ '=' :: v ++ ['\n'])
      | none => writeEnvAux rest m (acc ++ line ++ ['\n'])
    else writeEnvAux rest m (acc ++ line ++ ['\n'])

/-- `ElastiflowConfigurator.write_environment_variables` (elastiflow.py
lines 111-128) over the raw lines of `/etc/environment`, parametrised by the
configurator's attribute list (attribute name, rendered value). -/
def writeEnvironmentVariables (evars : List (Line × Line)) (lines : List Line) :
    Line :=
  writeEnvAux lines (evars.map (fun kv => (elastiflowKeyOf kv.1, kv.2))) []

/-- `LogstashConfigurator._overwrite_jvm_options` (logstash.py lines 80-93).
Each element of `lines` is a raw `readlines()` line, trailing newline
included.  A non-comment line containing `-Xms` (resp. `-Xmx`) is replaced
by `-Xms` + the in-memory initial (resp. maximum) heap value; every emitted
piece is followed by the unconditional `'\n'` of line 92.  The result is
the full new file content. -/
def overwriteJvmOptionsContent : List Line → Line → Line → Line
  | [], _, _ => []
  | l :: rest, im, mm =>
    (if !startsHash l && containsSeq (String.toList "-Xms") l then
       String.toList "-Xms" ++ im
     else if !startsHash l && containsSeq (String.toList "-Xmx") l then
       String.toList "-Xmx" ++ mm
     else l) ++ '\n' :: overwriteJvmOptionsContent rest im mm

/-- The logstash.yml lines written by `LogstashConfigurator.write_configs`
(logstash.py lines 194-196): `'{}: {}\n'.format(k, v)` for each entry of the
in-memory map, in order. -/
def writeYmlLines (m : List (Line × Line)) : List Line :=
  m.map (fun kv => kv.1 ++ ':' :: ' ' :: kv.2)

/-- `LogstashInstaller.download_logstash` (logstash.py lines 335-344): the
mirror URLs attempted, in file order; `ok` is the success of
`utilities.download_file` on each URL.  The loop breaks after the first
successful attempt. -/
def downloadLogstashAttempts (mirrors : List String) (ok : String → Bool) :
    List String :=
  match mirrors with
  | [] => []
  | u :: rest => if ok u then [u] else u :: downloadLogstashAttempts rest ok

/-- `ElastiFlowInstaller.download_elasticflow` (elastiflow.py lines 145-154):
identical loop shape over the elastiflow mirror file. -/
def downloadElasticflowAttempts (mirrors : List String) (ok : String → Bool) :
    List String :=
  match mirrors with
  | [] => []
  | u :: rest => if ok u then [u] else u :: downloadElasticflowAttempts rest ok

/-- The side-effecting steps `install_logstash` can perform after its memory
precondition check (logstash.py lines 652-662). -/
inductive InstallStep where
  | downloadJava
  | extractJava
  | setupJava
  | createDynamiteUser
  | downloadLogstashStep
  | extractLogstashStep
  | setupLogstashStep
deriving DecidableEq

/-- The memory threshold of `install_logstash`: `6 * (1000 ** 3)` bytes
(logstash.py line 647). -/
def minMemoryBytes : Nat := 6 * 1000 ^ 3

/-- `install_logstash` (logstash.py lines 638-671): when the available
memory is below the threshold, a message is written to stderr and `False`
is returned before any other step runs; otherwise the install steps are
sequenced (the model assumes they do not raise).  The result is
`(returned value, steps performed, stderr lines)`. -/
def installLogstash (memAvailableBytes : Nat)
    (installJdk createDynamiteUser : Bool) :
    Bool × List InstallStep × List String :=
  if memAvailableBytes < minMemoryBytes then
    (false, [], ["[-] Dynamite Logstash requires at-least 6GB to run"])
  else
    (true,
     (if installJdk then
        [InstallStep.downloadJava, InstallStep.extractJava, InstallStep.setupJava]
      else []) ++
     (if createDynamiteUser then [InstallStep.createDynamiteUser] else []) ++
     [InstallStep.downloadLogstashStep, InstallStep.extractLogstashStep,
      InstallStep.setupLogstashStep],
     [])

/-- The profiler booleans `install_agent` snapshots when it constructs
`ZeekProfiler` and `FileBeatProfiler` at entry (agent.py lines 17-19); the
profiler classes themselves live outside the excerpted sources, so their
findings are opaque parameters. -/
structure AgentSnapshot where
  zeekDownloaded : Bool
  zeekInstalled : Bool
  zeekRunning : Bool
  fbDownloaded : Bool
  fbInstalled : Bool
  fbRunning : Bool
deriving DecidableEq

/-- The side-effecting steps `install_agent` can perform. -/
inductive AgentStep where
  | downloadZeek
  | extractZeek
  | installZeekDependencies
  | setupZeek
  | downloadFileBeat
  | extractFileBeat
  | setupFileBeat
  | configureFileBeat
deriving DecidableEq

/-- `install_agent` (agent.py lines 8-50): aborts when either process is
running; downloads/installs Zeek and FileBeat only where the entry snapshot
says they are missing (aborting when Zeek's dependency install finds no
package manager); finally returns
`zeek_profiler.is_installed and filebeat_profiler.is_installed` — the
booleans snapshotted at entry, not re-inspected.  The result is
`(returned value, steps performed)`. -/
def installAgent (snap : AgentSnapshot) (zeekDepsOk : Bool) :
    Bool × List AgentStep :=
  if snap.zeekRunning || snap.fbRunning then (false, [])
  else
    let t1 := if !snap.zeekDownloaded then
        [AgentStep.downloadZeek, AgentStep.extractZeek] else []
    if !snap.zeekInstalled && !zeekDepsOk then
      (false, t1 ++ [AgentStep.installZeekDependencies])
    else
      let t2 := t1 ++ (if !snap.zeekInstalled then
          [AgentStep.installZeekDependencies, AgentStep.setupZeek] else [])
      let t3 := t2 ++ (if !snap.fbDownloaded then
          [AgentStep.downloadFileBeat, AgentStep.extractFileBeat] else [])
      let t4 := t3 ++ (if !snap.fbInstalled then
          [AgentStep.setupFileBeat, AgentStep.configureFileBeat] else [])
      (snap.zeekInstalled && snap.fbInstalled, t4)

/-- Helper for C8: the attempted logstash mirrors are exactly the failing
head of the list followed by the first success, when there is one. -/
theorem downloadLogstashAttempts_eq (mirrors : List String) (ok : String → Bool) :
    downloadLogstashAttempts mirrors ok =
      mirrors.takeWhile (fun u => !ok u) ++
        (mirrors.dropWhile (fun u => !ok u)).take 1 := by
  induction mirrors with
  | nil => rfl
  | cons u rest ih =>
    by_cases h : ok u
    · simp [downloadLogstashAttempts, h, List.takeWhile_cons, List.dropWhile_cons]
    · simp [downloadLogstashAttempts, h, List.takeWhile_cons, List.dropWhile_cons, ih]

/-- Helper for C8: the same for the elastiflow mirror loop. -/
theorem downloadElasticflowAttempts_eq (mirrors : List String) (ok : String → Bool) :
    downloadElasticflowAttempts mirrors ok =
      mirrors.takeWhile (fun u => !ok u) ++
        (mirrors.dropWhile (fun u => !ok u)).take 1 := by
  induction mirrors with
  | nil => rfl
  | cons u rest ih =>
    by_cases h : ok u
    · simp [downloadElasticflowAttempts, h, List.takeWhile_cons, List.dropWhile_cons]
    · simp [downloadElasticflowAttempts, h, List.takeWhile_cons, List.dropWhile_cons, ih]

/-- C1: the claim says a second `LogstashProcess.start()` with a live
recorded PID spawns no new child and reports the existing PID.  In the code
`start` resets `self.pid = -1` before the `check_pid` test (logstash.py line
551), so the already-running branch is unreachable and a new child is always
spawned: here the recorded PID 100 is alive, yet the call spawns one child
(spawn count 1) and then confirms the freshly written PID file (content 41,
recorded 41+1 = 42). -/
theorem c1_start_spawns_despite_live_pid :
    lsStart (fun p => p == 100 || p == 42) (some (String.toList "41")) 100 =
      some (true, 1) := by decide

/-- C2: the claim says `write_environment_variables` leaves every untouched
line unchanged and appends one line per absent key.  Line 124 of
elastiflow.py appends `'\n'` to a raw `readlines()` line that already ends
in `'\n'`, so every preserved line gains an extra blank line.  On the file
`FOO=bar\n` with the default configurator the rewritten file starts with
`FOO=bar`, then a blank line, then the first appended key, and has 31
newline-separated segments where the claim predicts 30 (the untouched line,
28 appended keys, one trailing empty segment). -/
theorem c2_env_write_inserts_blank_line :
    (splitChar '\n'
        (writeEnvironmentVariables elastiflowDefaultVars
          [String.toList "FOO=bar\n"])).take 3 =
      [String.toList "FOO=bar", [],
       String.toList "ELASTIFLOW_NETFLOW_IPV4_HOST=0.0.0.0"] ∧
    (splitChar '\n'
        (writeEnvironmentVariables elastiflowDefaultVars
          [String.toList "FOO=bar\n"])).length = 31 := by decide

/-- C3 counterexample: the claim says a Profiler inspection leaves all
external state unchanged in every starting state.  When `/etc/environment`
is readable but `/var/run/dynamite/logstash/` does not exist, the
`LogstashProcess` constructor reached from `_is_running` creates that
directory (logstash.py lines 537-539), so the filesystem after the
inspection differs from the starting one. -/
theorem c3_counterexample :
    (isRunningCheck (fun _ => false) ⟨none, none, some [], false, none⟩).1 ≠
      ⟨none, none, some [], false, none⟩ := by decide

/-- C3 amended: a Profiler `_is_running` inspection mutates nothing except
that, whenever the `LogstashConfigurator` construction succeeds (readable
`/etc/environment`, parsable `logstash.yml`, well-formed env entries) and
the run directory `/var/run/dynamite/logstash/` is missing, that directory
is created; in every other starting state (configurator raises first, or
the directory already exists) the filesystem is returned unchanged. -/
theorem c3_is_running_frame (alive : Int → Bool) (fs : LsFS) :
    (isRunningCheck alive fs).1 =
      match configuratorInit fs with
      | none => fs
      | some _ => if fs.runDir then fs else { fs with runDir := true } := by
  rcases h : configuratorInit fs with _ | cfg
  · simp [isRunningCheck, logstashProcessInit, h]
  · rcases h2 : lsStatusRunning alive cfg (pidPlusOne fs.pidFile) with _ | b <;>
      simp [isRunningCheck, logstashProcessInit, h, h2]

/-- C5: the claim says `_overwrite_jvm_options` reproduces every
non-heap line byte-for-byte.  Line 92 of logstash.py appends `'\n'` to a
raw line that already ends in `'\n'`, so each preserved line gains an extra
blank line: the file `# JVM opts\n-Xms1g\n-Xmx1g\n` rewritten with 4g heaps
becomes `# JVM opts\n\n-Xms4g\n-Xmx4g\n`, not the byte-for-byte
`# JVM opts\n-Xms4g\n-Xmx4g\n` the claim requires. -/
theorem c5_jvm_rewrite_doubles_newlines :
    overwriteJvmOptionsContent
        [String.toList "# JVM opts\n", String.toList "-Xms1g\n",
         String.toList "-Xmx1g\n"]
        (String.toList "4g") (String.toList "4g") =
      String.toList "# JVM opts\n\n-Xms4g\n-Xmx4g\n" ∧
    String.toList "# JVM opts\n\n-Xms4g\n-Xmx4g\n" ≠
      String.toList "# JVM opts\n-Xms4g\n-Xmx4g\n" := by decide

/-- C6: when the available system memory is below the 6 GB threshold,
`install_logstash` returns `False` with a descriptive stderr message and
performs none of its install steps. -/
theorem c6_low_memory_aborts_without_side_effects
    (memAvailableBytes : Nat) (installJdk createUser : Bool)
    (h : memAvailableBytes < minMemoryBytes) :
    installLogstash memAvailableBytes installJdk createUser =
      (false, [], ["[-] Dynamite Logstash requires at-least 6GB to run"]) := by
  simp [installLogstash, h]

/-- Witness for C6 at zero available memory. -/
theorem c6_low_memory_aborts_without_side_effects_witness :
    installLogstash 0 true true =
      (false, [], ["[-] Dynamite Logstash requires at-least 6GB to run"]) :=
  c6_low_memory_aborts_without_side_effects 0 true true (by decide)

/-- C8: both mirror-download loops attempt exactly the URLs up to and
including the first successful one, in file order: the attempts are the
longest all-failing head of the mirror list followed by the first success
when one exists, so every URL before the first success is attempted and no
URL after it is. -/
theorem c8_download_stops_at_first_success
    (mirrors : List String) (ok : String → Bool) :
    downloadLogstashAttempts mirrors ok =
      mirrors.takeWhile (fun u => !ok u) ++
        (mirrors.dropWhile (fun u => !ok u)).take 1 ∧
    downloadElasticflowAttempts mirrors ok =
      mirrors.takeWhile (fun u => !ok u) ++
        (mirrors.dropWhile (fun u => !ok u)).take 1 :=
  ⟨downloadLogstashAttempts_eq mirrors ok, downloadElasticflowAttempts_eq mirrors ok⟩

/-- C9 counterexample: the claim says every supervisor status check,
including each retry inside `start`, records the sentinel `-1` when the PID
file content is not an integer.  Inside `start`'s retry loop only `IOError`
is caught (logstash.py line 578), so non-integer content raises an uncaught
`ValueError` (modelled as `none`) instead of recording `-1`. -/
theorem c9_counterexample :
    ¬ startLoopRead (some (String.toList "oops")) 7 = some (-1) := by decide

/-- C9 amended: at construction the recorded PID is the PID-file integer
plus one, with `-1` when the file is missing or unparsable; inside
`start`'s retry loop a successful read records the integer plus one, a
missing file leaves the previously recorded PID unchanged, and non-integer
content raises an uncaught `ValueError` rather than recording `-1`. -/
theorem c9_pid_offset_and_sentinel :
    (∀ (fs fs' : LsFS) (cfg : LsConfig) (pid : Int),
        logstashProcessInit fs = some (fs', cfg, pid) →
        pid = (((fs.pidFile.bind pyIntChars).map (· + 1)).getD (-1))) ∧
    (∀ (s : Line) (n : Int) (pid0 : Int), pyIntChars s = some n →
        startLoopRead (some s) pid0 = some (n + 1)) ∧
    (∀ (s : Line) (pid0 : Int), pyIntChars s = none →
        startLoopRead (some s) pid0 = none) ∧
    (∀ pid0 : Int, startLoopRead none pid0 = some pid0) := by
  refine ⟨?_, ?_, ?_, ?_⟩
  · intro fs fs' cfg pid h
    unfold logstashProcessInit at h
    rcases hc : configuratorInit fs with _ | cfg0 <;> rw [hc] at h
    · exact absurd h (by simp)
    · simp only [Option.some.injEq, Prod.mk.injEq] at h
      obtain ⟨-, -, hpid⟩ := h
      subst hpid
      unfold pidPlusOne
      rcases fs.pidFile with _ | s
      · rfl
      · simp only [Option.bind_some]
        rcases hi : pyIntChars s with _ | n <;> simp [hi]
  · intro s n pid0 h
    simp [startLoopRead, h]
  · intro s pid0 h
    simp [startLoopRead, h]
  · intro pid0
    rfl

/-- Witness for C9 at a PID file containing `41` (recorded PID 42). -/
theorem c9_pid_offset_and_sentinel_witness :
    (42 : Int) =
      (((some (String.toList "41")).bind pyIntChars).map (· + 1)).getD (-1) ∧
    startLoopRead (some (String.toList "41")) (-1) = some 42 :=
  ⟨c9_pid_offset_and_sentinel.1
      ⟨none, none, some [], false, some (String.toList "41")⟩
      ⟨none, none, some [], true, some (String.toList "41")⟩
      ⟨[], [], none, none, none⟩ 42 (by decide),
   c9_pid_offset_and_sentinel.2.1 (String.toList "41") 41 (-1) (by decide)⟩

/-- Helper for C10: the boolean `install_agent` returns, as a function of
the entry snapshot alone. -/
theorem installAgent_fst (snap : AgentSnapshot) (zeekDepsOk : Bool) :
    (installAgent snap zeekDepsOk).1 =
      (!(snap.zeekRunning || snap.fbRunning) &&
        (snap.zeekInstalled && snap.fbInstalled)) := by
  obtain ⟨a, b, c, e, f, g⟩ := snap
  cases a <;> cases b <;> cases c <;> cases e <;> cases f <;> cases g <;>
    cases zeekDepsOk <;> rfl

/-- C10: `install_agent` returns the conjunction of the Zeek and FileBeat
`is_installed` booleans snapshotted by the profilers constructed at entry
(together with the not-already-running guard), so whenever either component
was not installed at entry the call returns `False` even if every step it
performs completes without error. -/
theorem c10_install_agent_returns_entry_snapshot :
    ∀ (snap : AgentSnapshot) (zeekDepsOk : Bool),
      (installAgent snap zeekDepsOk).1 =
        (!(snap.zeekRunning || snap.fbRunning) &&
          (snap.zeekInstalled && snap.fbInstalled)) ∧
      ((snap.zeekInstalled = false ∨ snap.fbInstalled = false) →
        (installAgent snap zeekDepsOk).1 = false) := by
  intro snap d
  refine ⟨installAgent_fst snap d, ?_⟩
  rintro (h | h) <;> rw [installAgent_fst snap d, h] <;> simp

/-- Witness for C10: Zeek not installed at entry, everything else healthy,
dependencies available — the call still returns `False`. -/
theorem c10_install_agent_returns_entry_snapshot_witness :
    (installAgent ⟨true, false, false, true, true, false⟩ true).1 = false :=
  (c10_install_agent_returns_entry_snapshot
      ⟨true, false, false, true, true, false⟩ true).2 (Or.inl rfl)

/-- Spec-side split: prefix before the first occurrence of `d` and the rest
after it (the whole line and `[]` when `d` is absent). -/
def splitFirstChar (d : Char) : Line → Line × Line
  | [] => ([], [])
  | c :: t =>
    if c = d then ([], t)
    else
      let p := splitFirstChar d t
      (c :: p.1, p.2)

/-- Spec-modelled reading of the Config File Editor `load` description:
skip comment lines and lines without the delimiter, split each remaining
line at the first delimiter, cleaning the value; total (never raises). -/
def specParseLsAux : List Line → List (Line × Line) → List (Line × Line)
  | [], m => m
  | l :: rest, m =>
    if startsHash l || !(containsChar ':' l) then specParseLsAux rest m
    else
      specParseLsAux rest
        (updAssoc m (splitFirstChar ':' (stripChars l)).1
          (cleanupValue (splitFirstChar ':' (stripChars l)).2))

/-- The spec-modelled loader on a whole file. -/
def specParseLogstashYaml (lines : List Line) : List (Line × Line) :=
  specParseLsAux lines []

/-- Number of occurrences of `d` in a line. -/
def countChar (d : Char) : Line → Nat
  | [] => 0
  | c :: t => (if c = d then 1 else 0) + countChar d t

/-- No quote characters anywhere in the line. -/
def noQuotes (l : Line) : Bool := l.all (fun c => !(c.toNat == 34 || c.toNat == 39))

/-- The keys of an association list. -/
def keysOf (m : List (Line × Line)) : List Line := m.map Prod.fst

theorem splitChar_ne_nil (d : Char) (l : Line) : splitChar d l ≠ [] := by
  cases l with
  | nil => simp [splitChar]
  | cons c t =>
    simp only [splitChar]
    rcases h : splitChar d t with _ | ⟨h0, r⟩
    · simp
    · by_cases hc : c == d <;> simp [hc]

theorem containsChar_nil (d : Char) : containsChar d [] = false := rfl

theorem containsChar_cons (d c : Char) (t : Line) :
    containsChar d (c :: t) = (c == d || containsChar d t) := by
  simp [containsChar, List.any_cons]

theorem containsChar_append (d : Char) (a b : Line) :
    containsChar d (a ++ b) = (containsChar d a || containsChar d b) := by
  simp [containsChar, List.any_append]

theorem splitChar_of_not_mem {d : Char} {l : Line}
    (h : containsChar d l = false) : splitChar d l = [l] := by
  induction l with
  | nil => rfl
  | cons c t ih =>
    rw [containsChar_cons] at h
    simp only [Bool.or_eq_false_iff] at h
    rw [splitChar, ih h.2]
    simp [h.1]

theorem splitChar_append_cons {d : Char} {a : Line} (b : Line)
    (h : containsChar d a = false) :
    splitChar d (a ++ d :: b) = a :: splitChar d b := by
  induction a with
  | nil =>
    simp only [List.nil_append, splitChar]
    rcases hs : splitChar d b with _ | ⟨h0, r⟩
    · exact absurd hs (splitChar_ne_nil d b)
    · simp
  | cons c t ih =>
    rw [containsChar_cons] at h
    simp only [Bool.or_eq_false_iff] at h
    rw [List.cons_append, splitChar, ih h.2]
    simp [h.1]

theorem splitChar_length (d : Char) (l : Line) :
    (splitChar d l).length = countChar d l + 1 := by
  induction l with
  | nil => rfl
  | cons c t ih =>
    simp only [splitChar, countChar]
    rcases hs : splitChar d t with _ | ⟨h0, r⟩
    · exact absurd hs (splitChar_ne_nil d t)
    · rw [hs] at ih
      by_cases hc : c == d
      · simp only [hc, if_pos, List.length_cons]
        simp only [List.length_cons] at ih
        have : c = d := by simpa using hc
        simp [this, ih]
        omega
      · simp only [hc, Bool.false_eq_true, if_neg, List.length_cons]
        simp only [List.length_cons] at ih
        have : ¬ c = d := by simpa using hc
        simp [this, ih]

theorem countChar_eq_zero_iff (d : Char) (l : Line) :
    countChar d l = 0 ↔ containsChar d l = false := by
  induction l with
  | nil => simp [countChar, containsChar]
  | cons c t ih =>
    rw [countChar, containsChar_cons]
    by_cases hc : c = d
    · simp [hc]
    · simp only [hc, if_neg, Nat.zero_add, ih, Bool.or_eq_false_iff,
        not_false_iff, beq_iff_eq]
      simp [hc]

theorem countChar_one_decomp {d : Char} {l : Line} (h : countChar d l = 1) :
    ∃ a b, l = a ++ d :: b ∧ containsChar d a = false ∧
      containsChar d b = false := by
  induction l with
  | nil => simp [countChar] at h
  | cons c t ih =>
    rw [countChar] at h
    by_cases hc : c = d
    · subst hc
      rw [if_pos rfl] at h
      have ht : countChar c t = 0 := by omega
      exact ⟨[], t, by simp, rfl, (countChar_eq_zero_iff c t).mp ht⟩
    · rw [if_neg hc, Nat.zero_add] at h
      obtain ⟨a, b, hl, ha, hb⟩ := ih h
      exact ⟨c :: a, b, by simp [hl], by
        rw [containsChar_cons, ha]; simpa using hc, hb⟩

theorem splitChar_pair {d : Char} {l a b : Line}
    (h : splitChar d l = [a, b]) :
    l = a ++ d :: b ∧ containsChar d a = false ∧ containsChar d b = false := by
  have hcount : countChar d l = 1 := by
    have := splitChar_length d l
    rw [h] at this
    simpa using this.symm
  obtain ⟨a', b', hl, ha', hb'⟩ := countChar_one_decomp hcount
  have : splitChar d l = [a', b'] := by
    rw [hl, splitChar_append_cons b' ha', splitChar_of_not_mem hb']
  rw [h] at this
  rcases List.cons_eq_cons.mp this with ⟨h1, h2⟩
  rcases List.cons_eq_cons.mp h2 with ⟨h3, -⟩
  subst h1; subst h3
  exact ⟨hl, ha', hb'⟩

theorem not_space_of_dropWhile_fixed {c : Char} {t : Line}
    (h : (c :: t).dropWhile isSpaceChar = c :: t) : isSpaceChar c = false := by
  by_contra hc
  simp only [Bool.not_eq_false] at hc
  rw [List.dropWhile_cons, if_pos hc] at h
  have := (List.dropWhile_sublist (l := t) (p := isSpaceChar)).length_le
  rw [h] at this
  simp at this

theorem lstrip_cons_of_not_space {c : Char} (t : Line)
    (h : isSpaceChar c = false) : lstripChars (c :: t) = c :: t := by
  rw [lstripChars, List.dropWhile_cons]
  simp [h]

theorem lstrip_append_fixed {k : Line} (hk : lstripChars k = k) {c : Char}
    (hc : isSpaceChar c = false) (r : Line) :
    lstripChars (k ++ c :: r) = k ++ c :: r := by
  cases k with
  | nil => simpa using lstrip_cons_of_not_space r hc
  | cons c0 t =>
    have hc0 : isSpaceChar c0 = false := not_space_of_dropWhile_fixed hk
    simpa using lstrip_cons_of_not_space (t ++ c :: r) hc0

theorem rstrip_append_fixed {v : Line} (hv : rstripChars v = v) (hne : v ≠ [])
    (x : Line) : rstripChars (x ++ v) = x ++ v := by
  have hvrev : v.reverse.dropWhile isSpaceChar = v.reverse := by
    have := congrArg List.reverse hv
    rwa [rstripChars, List.reverse_reverse] at this
  rcases hvr : v.reverse with _ | ⟨c0, t⟩
  · exact absurd (by simpa using congrArg List.reverse hvr) hne
  · rw [hvr] at hvrev
    have hc0 : isSpaceChar c0 = false := not_space_of_dropWhile_fixed hvrev
    have hvval : v = t.reverse ++ [c0] := by simpa using congrArg List.reverse hvr
    rw [rstripChars, List.reverse_append, hvr, List.cons_append,
      List.dropWhile_cons, hc0]
    simp [hvval, List.append_assoc]

theorem strip_fixed_parts {v : Line} (h : stripChars v = v) :
    lstripChars v = v ∧ rstripChars v = v := by
  have h1 : (lstripChars v).length ≤ v.length :=
    (List.dropWhile_sublist (l := v) (p := isSpaceChar)).length_le
  have h2 : (rstripChars (lstripChars v)).length ≤ (lstripChars v).length := by
    rw [rstripChars]
    have := (List.dropWhile_sublist (l := (lstripChars v).reverse)
      (p := isSpaceChar)).length_le
    simpa using this
  rw [stripChars] at h
  have hlenv := congrArg List.length h
  have hlen : (lstripChars v).length = v.length := by omega
  have hl : lstripChars v = v := by
    cases v with
    | nil => rfl
    | cons c t =>
      by_cases hc : isSpaceChar c
      · exfalso
        rw [lstripChars, List.dropWhile_cons, if_pos hc] at hlen
        have := (List.dropWhile_sublist (l := t) (p := isSpaceChar)).length_le
        simp only [List.length_cons] at hlen
        rw [show t.dropWhile isSpaceChar = lstripChars t from rfl] at hlen
        rw [show t.dropWhile isSpaceChar = lstripChars t from rfl] at this
        omega
      · exact lstrip_cons_of_not_space t (by simpa using hc)
  rw [hl] at h
  exact ⟨hl, h⟩

theorem lstrip_of_prefix {a b : Line} (h : lstripChars (a ++ b) = a ++ b) :
    lstripChars a = a := by
  cases a with
  | nil => rfl
  | cons c t =>
    have hc : isSpaceChar c = false := by
      rw [List.cons_append] at h
      exact not_space_of_dropWhile_fixed h
    exact lstrip_cons_of_not_space t hc

theorem lstrip_stripChars (l : Line) :
    lstripChars (stripChars l) = stripChars l := by
  have hfix : lstripChars (lstripChars l) = lstripChars l :=
    List.dropWhile_idempotent isSpaceChar l
  have hsuffix : List.IsSuffix ((lstripChars l).reverse.dropWhile isSpaceChar)
      (lstripChars l).reverse := List.dropWhile_suffix _
  have hpre : List.IsPrefix (stripChars l) (lstripChars l) := by
    rw [stripChars, rstripChars]
    have := List.reverse_prefix.mpr hsuffix
    rwa [List.reverse_reverse] at this
  obtain ⟨s, hs⟩ := hpre
  exact lstrip_of_prefix (by rw [hs]; exact hfix)

theorem stripChars_sublist (l : Line) : List.Sublist (stripChars l) l := by
  have h1 : List.Sublist (lstripChars l) l := List.dropWhile_sublist _
  have h2 : List.Sublist (rstripChars (lstripChars l)) (lstripChars l) := by
    rw [rstripChars]
    have := (List.dropWhile_sublist (l := (lstripChars l).reverse)
      (p := isSpaceChar)).reverse
    rwa [List.reverse_reverse] at this
  exact h2.trans h1

theorem containsChar_eq_false_iff (d : Char) (l : Line) :
    containsChar d l = false ↔ ∀ c ∈ l, ¬ c = d := by
  simp [containsChar, List.any_eq_true]

theorem containsChar_false_of_sublist {d : Char} {l1 l2 : Line}
    (hs : List.Sublist l1 l2) (h : containsChar d l2 = false) :
    containsChar d l1 = false :=
  (containsChar_eq_false_iff d l1).mpr
    (fun c hc => (containsChar_eq_false_iff d l2).mp h c (hs.mem hc))

theorem cleanupValue_colon_free {w : Line} (h : containsChar ':' w = false) :
    containsChar ':' (cleanupValue w) = false := by
  refine containsChar_false_of_sublist ?_ h
  exact (List.filter_sublist _).trans (stripChars_sublist w)

theorem cleanupValue_noQuotes (w : Line) : noQuotes (cleanupValue w) = true := by
  rw [noQuotes, List.all_eq_true]
  intro c hc
  rw [cleanupValue, removeQuotes, List.mem_filter] at hc
  exact hc.2

theorem removeQuotes_fixed {v : Line} (h : noQuotes v = true) :
    removeQuotes v = v := by
  rw [removeQuotes, List.filter_eq_self]
  rw [noQuotes, List.all_eq_true] at h
  exact h

theorem strip_line_cons {k v : Line} (hk : lstripChars k = k)
    (hv : stripChars v = v) (hne : v ≠ []) :
    stripChars (k ++ ':' :: ' ' :: v) = k ++ ':' :: ' ' :: v := by
  obtain ⟨hvl, hvr⟩ := strip_fixed_parts hv
  rw [stripChars, lstrip_append_fixed hk (by decide)]
  have := rstrip_append_fixed hvr hne (k ++ [':', ' '])
  simpa [List.append_assoc] using this

theorem strip_line_nil {k : Line} (hk : lstripChars k = k) :
    stripChars (k ++ [':', ' ']) = k ++ [':'] := by
  rw [stripChars, lstrip_append_fixed hk (by decide)]
  rw [rstripChars, List.reverse_append]
  have h1 : ([':', ' '] : Line).reverse = [' ', ':'] := rfl
  rw [h1, List.cons_append, List.dropWhile_cons]
  have h2 : isSpaceChar ' ' = true := by decide
  rw [h2, if_pos rfl, List.cons_append, List.dropWhile_cons]
  have h3 : isSpaceChar ':' = false := by decide
  rw [h3]
  simp

theorem cleanupValue_space_cons {v : Line} (hv : stripChars v = v)
    (hq : noQuotes v = true) : cleanupValue (' ' :: v) = v := by
  obtain ⟨hvl, hvr⟩ := strip_fixed_parts hv
  rw [cleanupValue, stripChars]
  have hl : lstripChars (' ' :: v) = lstripChars v := by
    rw [lstripChars, List.dropWhile_cons]
    simp only [show isSpaceChar ' ' = true from by decide, if_pos]
    rfl
  rw [hl, hvl, hvr, removeQuotes_fixed hq]

theorem lookupKV_updAssoc_self (m : List (Line × Line)) (k v : Line) :
    lookupKV (updAssoc m k v) k = some v := by
  induction m with
  | nil => simp [updAssoc, lookupKV]
  | cons kv0 t ih =>
    obtain ⟨k0, v0⟩ := kv0
    by_cases h : k0 = k
    · simp [updAssoc, h, lookupKV]
    · simp [updAssoc, h, lookupKV, ih]

theorem lookupKV_updAssoc_ne (m : List (Line × Line)) {k k2 : Line} (v : Line)
    (h : ¬ k2 = k) : lookupKV (updAssoc m k v) k2 = lookupKV m k2 := by
  induction m with
  | nil =>
    simp only [updAssoc, lookupKV]
    rw [if_neg (fun hh => h hh.symm)]
  | cons kv0 t ih =>
    obtain ⟨k0, v0⟩ := kv0
    by_cases h0 : k0 = k
    · subst h0
      simp only [updAssoc, if_pos rfl, lookupKV]
      rw [if_neg (fun hh => h hh.symm), if_neg (fun hh => h hh.symm)]
    · simp only [updAssoc, if_neg h0, lookupKV]
      by_cases h2 : k0 = k2
      · rw [if_pos h2, if_pos h2]
      · rw [if_neg h2, if_neg h2, ih]

theorem updAssoc_of_not_mem {m : List (Line × Line)} {k : Line} (v : Line)
    (h : ¬ k ∈ keysOf m) : updAssoc m k v = m ++ [(k, v)] := by
  induction m with
  | nil => rfl
  | cons kv0 t ih =>
    obtain ⟨k0, v0⟩ := kv0
    rw [keysOf, List.map_cons, List.mem_cons] at h
    push_neg at h
    rw [updAssoc, if_neg (fun hh => h.1 hh.symm), List.cons_append,
      ih (by rw [keysOf]; exact h.2)]

theorem keysOf_updAssoc_of_mem {m : List (Line × Line)} {k : Line} (v : Line)
    (h : k ∈ keysOf m) : keysOf (updAssoc m k v) = keysOf m := by
  induction m with
  | nil => simp [keysOf] at h
  | cons kv0 t ih =>
    obtain ⟨k0, v0⟩ := kv0
    by_cases h0 : k0 = k
    · simp [updAssoc, h0, keysOf]
    · rw [keysOf, List.map_cons, List.mem_cons] at h
      rcases h with h | h
      · exact absurd h.symm h0
      · simp only [updAssoc, if_neg h0, keysOf, List.map_cons]
        rw [show List.map Prod.fst (updAssoc t k v) = keysOf (updAssoc t k v)
          from rfl, ih h]
        rfl

theorem nodup_keysOf_updAssoc {m : List (Line × Line)} (k v : Line)
    (h : (keysOf m).Nodup) : (keysOf (updAssoc m k v)).Nodup := by
  by_cases hmem : k ∈ keysOf m
  · rwa [keysOf_updAssoc_of_mem v hmem]
  · rw [updAssoc_of_not_mem v hmem, keysOf, List.map_append]
    simp only [List.map_cons, List.map_nil]
    rw [show (m.map Prod.fst) = keysOf m from rfl]
    refine List.Nodup.append h (List.nodup_singleton k) ?_
    intro x hx hxk
    rw [List.mem_singleton] at hxk
    subst hxk
    exact hmem hx

theorem updAssoc_forall {P : Line × Line → Prop} {m : List (Line × Line)}
    {k v : Line} (hm : ∀ p ∈ m, P p) (hkv : P (k, v)) :
    ∀ p ∈ updAssoc m k v, P p := by
  induction m with
  | nil => simpa [updAssoc] using hkv
  | cons kv0 t ih =>
    obtain ⟨k0, v0⟩ := kv0
    by_cases h0 : k0 = k
    · subst h0
      rw [updAssoc, if_pos rfl]
      intro p hp
      rcases List.mem_cons.mp hp with h | h
      · exact h ▸ hkv
      · exact hm p (List.mem_cons_of_mem _ h)
    · rw [updAssoc, if_neg h0]
      intro p hp
      rcases List.mem_cons.mp hp with h | h
      · exact h ▸ hm (k0, v0) (List.mem_cons_self _ _)
      · exact ih (fun q hq => hm q (List.mem_cons_of_mem _ hq)) p h

theorem exists_entry_of_lookup {m : List (Line × Line)} {k : Line}
    (h : ¬ lookupKV m k = none) : ∃ p ∈ m, p.1 = k := by
  induction m with
  | nil => exact absurd rfl h
  | cons kv0 t ih =>
    obtain ⟨k0, v0⟩ := kv0
    by_cases h0 : k0 = k
    · exact ⟨(k0, v0), List.mem_cons_self _ _, h0⟩
    · rw [lookupKV, if_neg h0] at h
      obtain ⟨p, hp, hpk⟩ := ih h
      exact ⟨p, List.mem_cons_of_mem _ hp, hpk⟩

theorem mem_keysOf_of_lookup {m : List (Line × Line)} {k : Line}
    (h : ¬ lookupKV m k = none) : k ∈ keysOf m := by
  obtain ⟨p, hp, hpk⟩ := exists_entry_of_lookup h
  rw [keysOf, List.mem_map]
  exact ⟨p, hp, hpk⟩

/-- Invariant of every entry produced by the source parser: keys are
colon-free and have no leading whitespace, values are colon-free and
quote-free. -/
def InvPair (p : Line × Line) : Prop :=
  containsChar ':' p.1 = false ∧ lstripChars p.1 = p.1 ∧
    containsChar ':' p.2 = false ∧ noQuotes p.2 = true

theorem parseLsAux_inv {lines : List Line} :
    ∀ {acc m : List (Line × Line)}, parseLsAux lines acc = some m →
      (∀ p ∈ acc, InvPair p) → ∀ p ∈ m, InvPair p := by
  induction lines with
  | nil =>
    intro acc m h hacc
    rw [parseLsAux] at h
    cases h
    exact hacc
  | cons l rest ih =>
    intro acc m h hacc
    rw [parseLsAux] at h
    by_cases hskip : (startsHash l || !(containsChar ':' l)) = true
    · rw [if_pos hskip] at h
      exact ih h hacc
    · rw [if_neg hskip] at h
      rcases hsp : splitChar ':' (stripChars l) with _ | ⟨k, _ | ⟨w, _ | ⟨x, xs⟩⟩⟩ <;>
        rw [hsp] at h
      · exact Option.noConfusion h
      · exact Option.noConfusion h
      · obtain ⟨hl, hk, hw⟩ := splitChar_pair hsp
        have hkfix : lstripChars k = k := by
          have hfix := lstrip_stripChars l
          rw [hl] at hfix
          exact lstrip_of_prefix hfix
        exact ih h (updAssoc_forall hacc
          ⟨hk, hkfix, cleanupValue_colon_free hw, cleanupValue_noQuotes w⟩)
      · exact Option.noConfusion h

theorem parseLsAux_nodup {lines : List Line} :
    ∀ {acc m : List (Line × Line)}, parseLsAux lines acc = some m →
      (keysOf acc).Nodup → (keysOf m).Nodup := by
  induction lines with
  | nil =>
    intro acc m h hacc
    rw [parseLsAux] at h
    cases h
    exact hacc
  | cons l rest ih =>
    intro acc m h hacc
    rw [parseLsAux] at h
    by_cases hskip : (startsHash l || !(containsChar ':' l)) = true
    · rw [if_pos hskip] at h
      exact ih h hacc
    · rw [if_neg hskip] at h
      rcases hsp : splitChar ':' (stripChars l) with _ | ⟨k, _ | ⟨w, _ | ⟨x, xs⟩⟩⟩ <;>
        rw [hsp] at h
      · exact Option.noConfusion h
      · exact Option.noConfusion h
      · exact ih h (nodup_keysOf_updAssoc k (cleanupValue w) hacc)
      · exact Option.noConfusion h

theorem countChar_append (d : Char) (a b : Line) :
    countChar d (a ++ b) = countChar d a + countChar d b := by
  induction a with
  | nil => simp [countChar]
  | cons c t ih =>
    calc countChar d ((c :: t) ++ b)
        = (if c = d then 1 else 0) + countChar d (t ++ b) := rfl
      _ = (if c = d then 1 else 0) + (countChar d t + countChar d b) := by
          rw [ih]
      _ = countChar d (c :: t) + countChar d b := by
          simp only [countChar]
          omega

theorem countChar_reverse (d : Char) (l : Line) :
    countChar d l.reverse = countChar d l := by
  induction l with
  | nil => rfl
  | cons c t ih =>
    rw [List.reverse_cons, countChar_append, ih]
    simp only [countChar]
    omega

theorem countChar_dropWhile_space {d : Char} (hd : isSpaceChar d = false)
    (l : Line) : countChar d (l.dropWhile isSpaceChar) = countChar d l := by
  induction l with
  | nil => rfl
  | cons c t ih =>
    rw [List.dropWhile_cons]
    by_cases hc : isSpaceChar c = true
    · rw [if_pos hc, ih, countChar]
      have : ¬ c = d := fun h => by rw [h, hd] at hc; cases hc
      rw [if_neg this, Nat.zero_add]
    · rw [if_neg hc]

theorem countChar_stripChars {d : Char} (hd : isSpaceChar d = false)
    (l : Line) : countChar d (stripChars l) = countChar d l := by
  rw [stripChars, rstripChars, lstripChars, countChar_reverse,
    countChar_dropWhile_space hd, countChar_reverse,
    countChar_dropWhile_space hd]

theorem splitFirstChar_append {d : Char} {a : Line} (b : Line)
    (h : containsChar d a = false) :
    splitFirstChar d (a ++ d :: b) = (a, b) := by
  induction a with
  | nil => simp [splitFirstChar]
  | cons c t ih =>
    rw [containsChar_cons] at h
    simp only [Bool.or_eq_false_iff] at h
    rw [List.cons_append, splitFirstChar, if_neg (by simpa using h.1),
      ih h.2]

theorem parseLsAux_spec {lines : List Line} :
    ∀ acc, (∀ l ∈ lines, startsHash l = true ∨ countChar ':' l ≤ 1) →
      parseLsAux lines acc = some (specParseLsAux lines acc) := by
  induction lines with
  | nil => intro acc _; rfl
  | cons l rest ih =>
    intro acc hok
    rw [parseLsAux, specParseLsAux]
    by_cases hskip : (startsHash l || !(containsChar ':' l)) = true
    · rw [if_pos hskip, if_pos hskip]
      exact ih acc (fun x hx => hok x (List.mem_cons_of_mem _ hx))
    · rw [if_neg hskip, if_neg hskip]
      have hsh : startsHash l = false := by
        rcases Bool.or_eq_true _ _ ▸ hskip with -
        cases hh : startsHash l
        · rfl
        · exact absurd (by rw [hh]; rfl) hskip
      have hct : containsChar ':' l = true := by
        cases hh : containsChar ':' l
        · exact absurd (by rw [hh, hsh]; rfl) hskip
        · rfl
      have hcount : countChar ':' l = 1 := by
        rcases hok l (List.mem_cons_self _ _) with h | h
        · rw [h] at hsh; cases hsh
        · have hne : ¬ countChar ':' l = 0 := fun h0 => by
            rw [(countChar_eq_zero_iff ':' l).mp h0] at hct
            cases hct
          omega
      have hcount' : countChar ':' (stripChars l) = 1 := by
        rw [countChar_stripChars (by decide), hcount]
      obtain ⟨a, b, hl, ha, hb⟩ := countChar_one_decomp hcount'
      rw [hl, splitChar_append_cons b ha, splitChar_of_not_mem hb,
        splitFirstChar_append b ha]
      exact ih _ (fun x hx => hok x (List.mem_cons_of_mem _ hx))

/-- The conditions under which a map entry written as `k: v` reparses to
itself: key with no leading whitespace, colon-free, not starting the line as
a comment; value strip-fixed, colon-free and quote-free. -/
def WritePair (p : Line × Line) : Prop :=
  lstripChars p.1 = p.1 ∧ containsChar ':' p.1 = false ∧
    startsHash p.1 = false ∧ stripChars p.2 = p.2 ∧
    containsChar ':' p.2 = false ∧ noQuotes p.2 = true

theorem parseLsAux_write :
    ∀ (m acc : List (Line × Line)), (∀ p ∈ m, WritePair p) →
      (∀ p ∈ m, ¬ p.1 ∈ keysOf acc) → (keysOf m).Nodup →
      parseLsAux (writeYmlLines m) acc = some (acc ++ m) := by
  intro m
  induction m with
  | nil => intro acc _ _ _; simp [writeYmlLines, parseLsAux]
  | cons kv rest ih =>
    intro acc hw hdisj hnodup
    obtain ⟨k, v⟩ := kv
    obtain ⟨hk1, hk2, hk3, hv1, hv2, hv3⟩ := hw (k, v) (List.mem_cons_self _ _)
    rw [writeYmlLines, List.map_cons, parseLsAux]
    have hg1 : startsHash (k ++ ':' :: ' ' :: v) = false := by
      cases k with
      | nil => rfl
      | cons c t => simpa [startsHash] using (by simpa [startsHash] using hk3)
    have hg2 : containsChar ':' (k ++ ':' :: ' ' :: v) = true := by
      rw [containsChar_append, containsChar_cons]
      simp
    rw [hg1, hg2]
    simp only [Bool.not_true, Bool.or_false, Bool.false_eq_true, if_false]
    have hksplit : ∀ w : Line, containsChar ':' w = false →
        splitChar ':' (k ++ ':' :: w) = [k, w] := fun w hwc => by
      rw [splitChar_append_cons w hk2, splitChar_of_not_mem hwc]
    have hstep : parseLsAux (writeYmlLines rest) (updAssoc acc k v) =
        some (updAssoc acc k v ++ rest) := by
      apply ih
      · exact fun p hp => hw p (List.mem_cons_of_mem _ hp)
      · intro p hp hmem
        have hkacc : ¬ k ∈ keysOf acc :=
          hdisj (k, v) (List.mem_cons_self _ _)
        rw [updAssoc_of_not_mem v hkacc, keysOf, List.map_append] at hmem
        rcases List.mem_append.mp hmem with hmem | hmem
        · exact hdisj p (List.mem_cons_of_mem _ hp) hmem
        · simp only [List.map_cons, List.map_nil, List.mem_singleton] at hmem
          rw [keysOf] at hnodup
          simp only [List.map_cons, List.nodup_cons] at hnodup
          exact hnodup.1 (hmem ▸ List.mem_map_of_mem Prod.fst hp)
      · rw [keysOf] at hnodup ⊢
        simp only [List.map_cons, List.nodup_cons] at hnodup
        exact hnodup.2
    have hacckv : updAssoc acc k v = acc ++ [(k, v)] :=
      updAssoc_of_not_mem v (hdisj (k, v) (List.mem_cons_self _ _))
    cases v with
    | nil =>
      have hline : (k ++ ':' :: ' ' :: ([] : Line)) = k ++ [':', ' '] := rfl
      rw [hline, strip_line_nil hk1,
        show (k ++ [':'] : Line) = k ++ ':' :: [] from rfl,
        hksplit [] rfl]
      show parseLsAux (writeYmlLines rest)
        (updAssoc acc k (cleanupValue [])) = _
      rw [show cleanupValue [] = [] from rfl, hstep, hacckv]
      simp
    | cons c0 t0 =>
      rw [strip_line_cons hk1 hv1 (by simp), hksplit (' ' :: c0 :: t0)
        (by rw [containsChar_cons, hv2]; rfl)]
      show parseLsAux (writeYmlLines rest)
        (updAssoc acc k (cleanupValue (' ' :: c0 :: t0))) = _
      rw [cleanupValue_space_cons hv1 hv3, hstep, hacckv]
      simp

/-- C4 counterexample: the claim says no line content makes the loader
raise.  `_parse_logstashyaml` runs `k, v = line.strip().split(':')`, which
raises `ValueError` (modelled as `none`) on a value containing the
delimiter, e.g. the line `path.data: /a:/b`. -/
theorem c4_counterexample :
    parseLogstashYaml [String.toList "path.data: /a:/b"] = none := by decide

/-- C4 amended: the loader skips `#`-prefixed lines and lines without the
delimiter, and splits each remaining line with exactly one delimiter at
that delimiter into key and value (whitespace stripped, quote characters
removed from the value) — formalised as agreement with the spec-side
first-delimiter parser on every file whose non-comment lines carry at most
one delimiter; a line with two or more delimiters instead raises
(`c4_counterexample`). -/
theorem c4_parse_skips_and_splits (lines : List Line)
    (h : ∀ l ∈ lines, startsHash l = true ∨ countChar ':' l ≤ 1) :
    parseLogstashYaml lines = some (specParseLogstashYaml lines) :=
  parseLsAux_spec [] h

/-- Witness for C4 on a file with a comment line, a normal line and a
delimiter-free line. -/
theorem c4_parse_skips_and_splits_witness :
    parseLogstashYaml
        [String.toList "# node.name: skipped",
         String.toList "path.data: /var/dynamite",
         String.toList "no delimiter either"] =
      some (specParseLogstashYaml
        [String.toList "# node.name: skipped",
         String.toList "path.data: /var/dynamite",
         String.toList "no delimiter either"]) :=
  c4_parse_skips_and_splits _ (by decide)

/-- C7 counterexample: the claim quantifies over every upsert on a loaded
config.  Loading `a: 1`, setting key `a` to the value `b:c` and saving
writes the line `a: b:c`, whose reload raises `ValueError` (modelled as
`none`), so the reloaded map does not hold `b:c` under `a`. -/
theorem c7_counterexample :
    parseLogstashYaml [String.toList "a: 1"] =
      some [(String.toList "a", String.toList "1")] ∧
    parseLogstashYaml
        (writeYmlLines
          (updAssoc [(String.toList "a", String.toList "1")]
            (String.toList "a") (String.toList "b:c"))) = none := by decide

/-- C7 amended: for a loaded map `m` in which `k` is a known key, setting
`k` to `v`, writing with `write_configs` and reloading yields `v` under `k`
and leaves every other key's value unchanged — provided the new value has
no delimiter, quote or newline characters and no surrounding whitespace,
every loaded value is strip-fixed (quote removal can expose surrounding
whitespace, which a reload would strip), and no key starts with `#`. -/
theorem c7_load_set_save_reload
    (lines : List Line) (m : List (Line × Line)) (k v : Line)
    (hload : parseLogstashYaml lines = some m)
    (hknown : ¬ lookupKV m k = none)
    (hv1 : containsChar ':' v = false) (hv2 : noQuotes v = true)
    (hv3 : stripChars v = v) (hv4 : containsChar '\n' v = false)
    (hm1 : ∀ p ∈ m, stripChars p.2 = p.2)
    (hm2 : ∀ p ∈ m, startsHash p.1 = false) :
    parseLogstashYaml (writeYmlLines (updAssoc m k v)) =
      some (updAssoc m k v) ∧
    lookupKV (updAssoc m k v) k = some v ∧
    ∀ k2, ¬ k2 = k → lookupKV (updAssoc m k v) k2 = lookupKV m k2 := by
  have hinv : ∀ p ∈ m, InvPair p :=
    parseLsAux_inv hload (by intro p hp; cases hp)
  have hnodup : (keysOf m).Nodup :=
    parseLsAux_nodup hload List.nodup_nil
  have hwrite : ∀ p ∈ updAssoc m k v, WritePair p := by
    apply updAssoc_forall
    · intro p hp
      obtain ⟨h1, h2, h3, h4⟩ := hinv p hp
      exact ⟨h2, h1, hm2 p hp, hm1 p hp, h3, h4⟩
    · obtain ⟨p, hp, hpk⟩ := exists_entry_of_lookup hknown
      obtain ⟨h1, h2, h3, h4⟩ := hinv p hp
      subst hpk
      exact ⟨h2, h1, hm2 p hp, hv3, hv1, hv2⟩
  have hnodup2 : (keysOf (updAssoc m k v)).Nodup :=
    nodup_keysOf_updAssoc k v hnodup
  have hdisj : ∀ p ∈ updAssoc m k v, ¬ p.1 ∈ keysOf ([] : List (Line × Line)) := by
    intro p hp hmem
    cases hmem
  have hrt := parseLsAux_write (updAssoc m k v) [] hwrite hdisj hnodup2
  exact ⟨by simpa [parseLogstashYaml] using hrt,
    lookupKV_updAssoc_self m k v,
    fun k2 h2 => lookupKV_updAssoc_ne m v h2⟩

/-- Witness for C7: load `a: 1`, `b: 2`; set `a` to `9`; save; reload. -/
theorem c7_load_set_save_reload_witness :
    parseLogstashYaml
        (writeYmlLines
          (updAssoc
            [(String.toList "a", String.toList "1"),
             (String.toList "b", String.toList "2")]
            (String.toList "a") (String.toList "9"))) =
      some (updAssoc
        [(String.toList "a", String.toList "1"),
         (String.toList "b", String.toList "2")]
        (String.toList "a") (String.toList "9")) ∧
    lookupKV
        (updAssoc
          [(String.toList "a", String.toList "1"),
           (String.toList "b", String.toList "2")]
          (String.toList "a") (String.toList "9")) (String.toList "a") =
      some (String.toList "9") ∧
    ∀ k2, ¬ k2 = String.toList "a" →
      lookupKV
          (updAssoc
            [(String.toList "a", String.toList "1"),
             (String.toList "b", String.toList "2")]
            (String.toList "a") (String.toList "9")) k2 =
        lookupKV
          [(String.toList "a", String.toList "1"),
           (String.toList "b", String.toList "2")] k2 :=
  c7_load_set_save_reload
    [String.toList "a: 1", String.toList "b: 2"]
    [(String.toList "a", String.toList "1"),
     (String.toList "b", String.toList "2")]
    (String.toList "a") (String.toList "9")
    (by decide) (by decide) (by decide) (by decide) (by decide) (by decide)
    (by decide) (by decide)

end DynamiteNSM
